import Mathlib

/-!
Verification development for the GateLAN WinDivert gateway (src/main.go).

The Go source is shallowly embedded: byte strings become `List Char`
(payloads, flow keys) or `List Nat` (raw frames), `time.Time` becomes `Int`,
`net.Conn` handles become `Nat` with `Option` modelling Go's `nil`, and the
network oracles (liveness probe, dial outcome, write outcome) become explicit
boolean/optional parameters.  Each definition mirrors the corresponding Go
function line by line; doc comments name the source function.
-/

namespace GateLAN

/-- Byte strings from the Go source (`string` / `[]byte` holding text). -/
abbrev Str := List Char

/-- Whitespace set of Go's `unicode.IsSpace`, restricted to the Latin-1
range (`'\t'`, `'\n'`, vertical tab, form feed, `'\r'`, `' '`, U+0085,
U+00A0); the higher Unicode space code points never occur in the inputs
considered here. Used by `strings.Fields`. -/
def isGoSpace (c : Char) : Bool :=
  c = ' ' || c = '\t' || c = '\n' || c = Char.ofNat 0x0B ||
  c = Char.ofNat 0x0C || c = '\r' || c = Char.ofNat 0x85 || c = Char.ofNat 0xA0

/-- Accumulator worker for `fields`: `acc` holds the current word reversed. -/
def fieldsAux : Str → Str → List Str
  | [], [] => []
  | [], a :: as => [(a :: as).reverse]
  | c :: cs, acc =>
    if isGoSpace c then
      match acc with
      | [] => fieldsAux cs []
      | a :: as => (a :: as).reverse :: fieldsAux cs []
    else
      fieldsAux cs (c :: acc)

/-- Go `strings.Fields`: split around maximal runs of whitespace. -/
def fields (s : Str) : List Str := fieldsAux s []

/-- Go `bufio.Reader.ReadString('\n')` as used by the parsers: the returned
line includes the delimiter; when no `'\n'` occurs the read ends in `io.EOF`
and the parsers return that error, modelled by `none`. -/
def readLine : Str → Option Str
  | [] => none
  | c :: cs =>
    if c = '\n' then some [c]
    else
      match readLine cs with
      | none => none
      | some l => some (c :: l)

/-- Worker for `startsWith`, recursing on the prefix pattern. -/
def startsWithAux : Str → Str → Bool
  | [], _ => true
  | _ :: _, [] => false
  | p0 :: ps, c :: cs => if c = p0 then startsWithAux ps cs else false

/-- Go `strings.HasPrefix s p`. -/
def startsWith (s p : Str) : Bool := startsWithAux p s

/-- Character membership test (Go `strings.Contains` with a 1-byte needle). -/
def hasChar : Str → Char → Bool
  | [], _ => false
  | x :: xs, c => if x = c then true else hasChar xs c

/-- Index of the first occurrence of `c` (Go `strings.Index`/`IndexByte`). -/
def idxOfChar : Str → Char → Option Nat
  | [], _ => none
  | x :: xs, c => if x = c then some 0 else (idxOfChar xs c).map (· + 1)

/-- Index of the last occurrence of `c` (Go `strings.LastIndex`/`last`). -/
def lastIdx : Str → Char → Option Nat
  | [], _ => none
  | x :: xs, c =>
    match lastIdx xs c with
    | some i => some (i + 1)
    | none => if x = c then some 0 else none

/-- Decimal digit-run evaluator used by `digitsVal` (Go `strconv` core loop:
any non-digit byte aborts with an error). -/
def digitsValAux : Str → Nat → Option Nat
  | [], acc => some acc
  | c :: cs, acc =>
    if c.isDigit then digitsValAux cs (acc * 10 + (c.toNat - 48)) else none

/-- Value of a non-empty all-digit string; `none` on the empty string or any
non-digit byte, mirroring `strconv.Atoi`'s digit scan. -/
def digitsVal (s : Str) : Option Nat :=
  match s with
  | [] => none
  | _ => digitsValAux s 0

/-- Go `strconv.Atoi`: optional sign, then decimal digits; errors on an empty
digit run, a stray byte, or 64-bit overflow. -/
def atoi (s : Str) : Option Int :=
  match s with
  | [] => none
  | c :: rest =>
    if c = '+' then
      (digitsVal rest).bind (fun n => if n < 2 ^ 63 then some (n : Int) else none)
    else if c = '-' then
      (digitsVal rest).bind (fun n => if n ≤ 2 ^ 63 then some (-(n : Int)) else none)
    else
      (digitsVal s).bind (fun n => if n < 2 ^ 63 then some (n : Int) else none)

/-- Body of `net.SplitHostPort` once the index `i` of the last colon is
known: bracketed IPv6 literals follow the Go bracket rules; otherwise the
host is everything before the last colon (it must itself be colon-free) and
stray brackets anywhere are an error. -/
def splitHostPortAt (s : Str) (i : Nat) : Option (Str × Str) :=
  if s.head? = some '[' then
    match idxOfChar s ']' with
    | none => none
    | some e =>
      if e + 1 = s.length then none
      else if e + 1 = i then
        if hasChar (s.drop 1) '[' || hasChar (s.drop (e + 1)) ']' then none
        else some ((s.drop 1).take (e - 1), s.drop (i + 1))
      else none
  else
    if hasChar (s.take i) ':' then none
    else if hasChar s '[' || hasChar s ']' then none
    else some (s.take i, s.drop (i + 1))

/-- Go `net.SplitHostPort`: requires a colon; the port may be empty
(`"host:"` splits into `("host", "")`), but a colon-free input is an error
(`missing port in address`), modelled by `none`. -/
def splitHostPort (s : Str) : Option (Str × Str) :=
  match lastIdx s ':' with
  | none => none
  | some i => splitHostPortAt s i

/-- Go `net/url.validOptionalPort`: empty, or a colon followed by digits. -/
def validOptionalPort (s : Str) : Bool :=
  match s with
  | [] => true
  | ':' :: rest => rest.all Char.isDigit
  | _ => false

/-- Characters `net/url` accepts unescaped inside a host component
(`shouldEscape(c, encodeHost) = false`). -/
def hostCharAllowed (c : Char) : Bool :=
  c.isAlphanum ||
  ['-', '.', '_', '~', '!', '$', '&', Char.ofNat 39, '(', ')', '*', '+',
   ',', ';', '=', ':', '[', ']', '<', '>', '"'].contains c

/-- Characters `net/url.validUserinfo` accepts in the userinfo component. -/
def userinfoCharAllowed (c : Char) : Bool :=
  c.isAlphanum ||
  ['-', '.', '_', ':', '~', '!', '$', '&', Char.ofNat 39, '(', ')', '*', '+',
   ',', ';', '=', '%', '@'].contains c

/-- Go `net/url.parseHost` on the percent-escape-free fragment: validates an
optional `:port` suffix (after the bracket for IPv6 literals) and rejects
disallowed bytes; returns the host component (brackets kept), as stored in
`URL.Host`. -/
def parseHost (hp : Str) : Option Str :=
  if hp.head? = some '[' then
    match lastIdx hp ']' with
    | none => none
    | some i =>
      if validOptionalPort (hp.drop (i + 1)) then
        if hp.all (fun c => 0x80 ≤ c.toNat || hostCharAllowed c) then some hp else none
      else none
  else
    match lastIdx hp ':' with
    | some i =>
      if validOptionalPort (hp.drop i) then
        if hp.all (fun c => 0x80 ≤ c.toNat || hostCharAllowed c) then some hp else none
      else none
    | none =>
      if hp.all (fun c => 0x80 ≤ c.toNat || hostCharAllowed c) then some hp else none

/-- Control bytes that make `net/url.Parse` fail outright. -/
def ctlByte (c : Char) : Bool := c.toNat < 0x20 || c.toNat = 0x7f

/-- Go `net/url.parseAuthority` on the percent-escape-free fragment: the
userinfo before the last `'@'` is validated, the rest is the host. -/
def parseAuthority (authority : Str) : Option Str :=
  match lastIdx authority '@' with
  | none => parseHost authority
  | some i =>
    if (authority.take i).all userinfoCharAllowed then
      parseHost (authority.drop (i + 1))
    else none

/-- Go `net/url.Parse` specialised to the shape produced by
`parseHTTPRequest` (the scheme is always `http://` there) and to the
percent-escape-free fragment: every theorem instance below stays in that
fragment, so `'%'` is conservatively rejected instead of escape-decoded.
Returns the `URL.Host` component.  The authority extends from after
`"http://"` to the first `'/'`, `'?'` or `'#'`, exactly as Go's fragment
cut, query cut and slash scan produce. -/
def parseURL (s : Str) : Option Str :=
  if s.any ctlByte then none
  else if hasChar s '%' then none
  else if startsWith s ("http://".toList) then
    parseAuthority ((s.drop 7).takeWhile (fun c => !(c = '/' || c = '?' || c = '#')))
  else none

/-- Go `net/url`'s internal `splitHostPort`, backing `URL.Hostname()` and
`URL.Port()`: split a valid numeric `:port` suffix off, then strip one pair
of surrounding brackets. -/
def urlSplitHostPort (h : Str) : Str × Str :=
  let hp :=
    match lastIdx h ':' with
    | some i => if validOptionalPort (h.drop i) then (h.take i, h.drop (i + 1)) else (h, [])
    | none => (h, [])
  let host := hp.1
  let host :=
    if host.head? = some '[' && host.getLast? = some ']' then
      (host.drop 1).take (host.length - 2)
    else host
  (host, hp.2)

/-- Classifier failure causes; each constructor names the Go error site.  In
the spec's taxonomy every one of these is a `MalformedRequest`. -/
inductive ParseErr where
  /-- `ReadString` ended in `io.EOF` before a newline. -/
  | readErr
  /-- `parseHTTPRequest`: fewer than 3 request-line tokens. -/
  | invalidRequest
  /-- `parseHTTPRequest`: the target token is `*`. -/
  | invalidURLStar
  /-- `parseHTTPRequest`: `url.Parse` failed. -/
  | urlErr
  /-- `strconv.Atoi` failed on the port. -/
  | atoiErr
  /-- `parseCONNECTRequest`: fewer than 3 tokens or method not `CONNECT`. -/
  | invalidConnect
  /-- `parseCONNECTRequest`: `net.SplitHostPort` failed. -/
  | splitErr
  deriving DecidableEq

/-- Result of either request parser: `(host, port)` or an error. -/
inductive ParseResult where
  | ok (host : Str) (port : Int)
  | err (e : ParseErr)
  deriving DecidableEq

/-- Whether a parse ended in an error. -/
def ParseResult.isErr : ParseResult → Bool
  | .ok _ _ => false
  | .err _ => true

/-- Final step of `parseCONNECTRequest`: `return host, strconv.Atoi(port)`
with a nil-error check by the caller, so an `Atoi` failure is an error. -/
def parseConnPort (host port : Str) : ParseResult :=
  match atoi port with
  | none => .err .atoiErr
  | some n => .ok host n

/-- Token step of `parseCONNECTRequest`: method check, `net.SplitHostPort`
on the second token, empty port defaulting to `"443"` (src/main.go:600-613). -/
def parseCONNECTTokens (tok0 hostPort : Str) : ParseResult :=
  if tok0 = "CONNECT".toList then
    match splitHostPort hostPort with
    | none => .err .splitErr
    | some hp => parseConnPort hp.1 (if hp.2 = [] then "443".toList else hp.2)
  else .err .invalidConnect

/-- Line step of `parseCONNECTRequest`: `strings.Fields` and the
`len(parts) < 3 || parts[0] != "CONNECT"` check (src/main.go:598-601). -/
def parseCONNECTLine (line : Str) : ParseResult :=
  match fields line with
  | tok0 :: hostPort :: _ :: _ => parseCONNECTTokens tok0 hostPort
  | _ => .err .invalidConnect

/-- Go `parseCONNECTRequest` (src/main.go:589-616): read the first line,
split into fields, require at least 3 tokens with method `CONNECT`, then
`net.SplitHostPort` on the second token; an empty port string defaults to
`"443"` before `Atoi`. -/
def parseCONNECTRequest (payload : Str) : ParseResult :=
  match readLine payload with
  | none => .err .readErr
  | some line => parseCONNECTLine line

/-- Final step of `parseHTTPRequest`: `Hostname()`/`Port()` of the parsed
URL, the port defaulting to `"80"`, then `Atoi` (src/main.go:579-586). -/
def hostPortResult (hn : Str × Str) : ParseResult :=
  match atoi (if hn.2 = [] then "80".toList else hn.2) with
  | none => .err .atoiErr
  | some n => .ok hn.1 n

/-- URL step of `parseHTTPRequest`: reject `*`, prepend `http://` when
absent, `url.Parse` (src/main.go:563-577). -/
def parseHTTPURL (urlStr : Str) : ParseResult :=
  if urlStr = ['*'] then .err .invalidURLStar
  else
    match parseURL (if startsWith urlStr ("http://".toList) then urlStr
                    else "http://".toList ++ urlStr) with
    | none => .err .urlErr
    | some hostComp => hostPortResult (urlSplitHostPort hostComp)

/-- Line step of `parseHTTPRequest`: `strings.Fields` and the
`len(parts) < 3` check (src/main.go:557-561). -/
def parseHTTPLine (line : Str) : ParseResult :=
  match fields line with
  | _ :: urlStr :: _ :: _ => parseHTTPURL urlStr
  | _ => .err .invalidRequest

/-- Go `parseHTTPRequest` (src/main.go:548-587): read the first line, split
into fields, require at least 3 tokens, reject target `*`, prepend
`http://` when absent, `url.Parse`, then `Hostname()`/`Port()` with the
port defaulting to `"80"` before `Atoi`.  Only the request line is ever
read; header lines are never examined. -/
def parseHTTPRequest (payload : Str) : ParseResult :=
  match readLine payload with
  | none => .err .readErr
  | some line => parseHTTPLine line

/-- A request whose first line is `w1 SP w2 SP w3 CRLF` followed by the rest
of the bytes (header lines, body, ...). -/
def requestLine (w1 w2 w3 rest : Str) : Str :=
  w1 ++ (' ' :: (w2 ++ (' ' :: (w3 ++ ('\r' :: '\n' :: rest)))))

/-! ## Frame layer (src/main.go:509-546, 241-263) -/

/-- Raw frames are byte lists; each element is a byte value `< 256`. -/
abbrev Frame := List Nat

/-- Go `isTCP` (src/main.go:509-514): at least 20 bytes and the high nibble
of byte 12 equal to 4. -/
def isTCP (p : Frame) : Bool :=
  if p.length < 20 then false
  else (p.getD 12 0) >>> 4 = 4

/-- Outcome of `extractTCPPayload`: a payload, a returned Go error, or a
runtime index-out-of-range panic. -/
inductive ExtractResult where
  | ok (payload : Frame)
  | err
  | panicked
  deriving DecidableEq

/-- Go `extractTCPPayload` (src/main.go:516-539).  `ipHeaderLen` is the low
nibble of byte 0 times 4; the code checks `ipHeaderLen > len(packet)` but
then indexes `packet[ipHeaderLen+12]`, which panics whenever
`ipHeaderLen + 12 ≥ len(packet)`; the `panicked` constructor records exactly
that Go runtime panic. -/
def extractTCPPayload (p : Frame) : ExtractResult :=
  if p.length < 40 then .err
  else
    let ipHeaderLen := (p.getD 0 0 &&& 0x0F) * 4
    if ipHeaderLen > p.length then .err
    else if p.length ≤ ipHeaderLen + 12 then .panicked
    else
      let tcpHeaderLen := ((p.getD (ipHeaderLen + 12) 0 &&& 0xF0) >>> 4) * 4
      if tcpHeaderLen > p.length - ipHeaderLen then .err
      else if p.length ≤ ipHeaderLen + tcpHeaderLen then .err
      else .ok (p.drop (ipHeaderLen + tcpHeaderLen))

/-- Go `extractDestinationPort` (src/main.go:541-546). -/
def extractDestinationPort (p : Frame) : Nat :=
  if p.length < 22 then 0
  else (p.getD 20 0) * 256 + p.getD 21 0

/-- What `processPacket` does with one frame. -/
inductive PacketAction where
  /-- `windivert.Send(packetInfo.RawPacket, packetInfo.Addr)`: the original
  frame is reinjected unmodified. -/
  | reinjectOriginal
  /-- `handleProxyTraffic` is invoked with this payload and port. -/
  | toProxy (payload : Frame) (destPort : Nat)
  /-- A Go runtime panic escaped (index out of range). -/
  | panicked
  deriving DecidableEq

/-- Go `processPacket` (src/main.go:241-263): non-TCP frames and frames whose
payload extraction returns an error are reinjected unmodified; ports 80/443
go to the proxy path; anything else is reinjected. -/
def processPacket (p : Frame) : PacketAction :=
  if !isTCP p then .reinjectOriginal
  else
    match extractTCPPayload p with
    | .err => .reinjectOriginal
    | .panicked => .panicked
    | .ok payload =>
      let destPort := extractDestinationPort p
      if destPort = 80 || destPort = 443 then .toProxy payload destPort
      else .reinjectOriginal

/-- Go `redirectPacketToProxy` (src/main.go:631-642): a stub that returns the
input frame unchanged. -/
def redirectPacketToProxy (packet : Frame) (_proxyAddr : Str) (_proxyPort : Nat) : Frame :=
  packet

/-! ## Connection pool (src/main.go:41-46, 364-442) -/

/-- Go `ProxyConnection` (src/main.go:41-46).  `proxyConn = none` models a
nil `net.Conn`; timestamps are `Int` instants. -/
structure ProxyConnection where
  originalDest : Str
  proxyConn : Option Nat
  createdAt : Int
  lastUsed : Int
  deriving DecidableEq

/-- The pool map `proxyConns : map[string]*ProxyConnection`, as an
association list with pairwise-distinct keys. -/
abbrev Pool := List (Str × ProxyConnection)

/-- Map lookup `g.proxyConns[flowKey]`. -/
def lookupPC (k : Str) : Pool → Option ProxyConnection
  | [] => none
  | (k2, v) :: rest => if k2 = k then some v else lookupPC k rest

/-- Map assignment `g.proxyConns[flowKey] = conn`: replace an existing entry
in place or append a new one. -/
def poolInsert (pool : Pool) (k : Str) (v : ProxyConnection) : Pool :=
  if (lookupPC k pool).isSome then
    pool.map (fun kv => if kv.1 = k then (k, v) else kv)
  else pool ++ [(k, v)]

/-- Expiry predicate of `cleanupOldConnections` (src/main.go:434):
`now.Sub(conn.LastUsed) > g.connPoolExpiry`. -/
def expiredB (now expiry : Int) (c : ProxyConnection) : Bool :=
  now - c.lastUsed > expiry

/-- Go `cleanupOldConnections` (src/main.go:428-442) body, the sweep run
under the pool lock: every entry satisfying the expiry predicate has its
transport closed (when non-nil) and is deleted; the rest stay.  Returns the
remaining pool and the list of closed transport handles. -/
def cleanupOldConnections (pool : Pool) (now expiry : Int) : Pool × List Nat :=
  (pool.filter (fun kv => !expiredB now expiry kv.2),
   (pool.filter (fun kv => expiredB now expiry kv.2)).filterMap (fun kv => kv.2.proxyConn))

/-- Result of `getProxyConnection`: note that `ok` can carry `none`, the Go
`(nil, nil)` return. -/
inductive GetPCResult where
  /-- `return conn, nil` — possibly with a nil `conn`. -/
  | ok (conn : Option ProxyConnection) (pool : Pool)
  /-- `return nil, fmt.Errorf("failed to connect to proxy: %w", err)` —
  the spec's `UpstreamUnreachable`. -/
  | dialErr (pool : Pool)
  /-- The capacity branch called `cleanupOldConnections`, which re-acquires
  `g.connPoolMutex.Lock()` while `getProxyConnection` already holds it
  (src/main.go:381, 385-387, 429); Go's `sync.RWMutex` is not reentrant, so
  this call blocks forever.  The pool is left as it was. -/
  | deadlock (pool : Pool)
  deriving DecidableEq

/-- Creation half of `getProxyConnection` (src/main.go:380-409), entered when
no live cached entry was found.  `stale` is the local `conn` variable at
that point: the dead cached entry, or `nil` on a map miss.  `dial` is the
outcome of `net.Dial` (`none` = error); `capacity` is `g.connPoolSize`. -/
def createProxyConn (pool : Pool) (flowKey : Str) (destPort : Nat) (now : Int)
    (dial : Option Nat) (capacity : Nat) (stale : Option ProxyConnection) : GetPCResult :=
  if capacity ≤ pool.length then .deadlock pool
  else if destPort = 443 then
    match dial with
    | none => .dialErr pool
    | some t =>
      .ok (some ⟨[], some t, now, now⟩) (poolInsert pool flowKey ⟨[], some t, now, now⟩)
  else .ok stale pool

/-- Go `getProxyConnection` (src/main.go:364-410).  `probeOk` is the outcome
of the 100ms `SetReadDeadline` liveness probe.  A cached entry with a
non-nil transport and a successful probe is touched (`LastUsed = now`) and
returned; otherwise control falls through to `createProxyConn`, which dials
only for destination port 443.  The Go code creates a fresh entry with two
consecutive `time.Now()` calls; with the monotone clock both are modelled
as `now`. -/
def getProxyConnection (pool : Pool) (flowKey : Str) (destPort : Nat) (now : Int)
    (probeOk : Bool) (dial : Option Nat) (capacity : Nat) : GetPCResult :=
  match lookupPC flowKey pool with
  | some conn =>
    if conn.proxyConn.isSome && probeOk then
      .ok (some { conn with lastUsed := now })
        (poolInsert pool flowKey { conn with lastUsed := now })
    else createProxyConn pool flowKey destPort now dial capacity (some conn)
  | none => createProxyConn pool flowKey destPort now dial capacity none

/-- The pool state after a `getProxyConnection` outcome. -/
def resultPool : GetPCResult → Pool
  | .ok _ p => p
  | .dialErr p => p
  | .deadlock p => p

/-- The returned connection of a non-error `getProxyConnection` outcome. -/
def gpcConn : GetPCResult → Option (Option ProxyConnection)
  | .ok c _ => some c
  | _ => none

/-- The code's own liveness test for a cached entry: present, non-nil
transport, and a successful probe. -/
def liveEntry (pool : Pool) (k : Str) (probeOk : Bool) : Bool :=
  match lookupPC k pool with
  | some c => c.proxyConn.isSome && probeOk
  | none => false

/-! ## HTTP traffic path (src/main.go:297-322) -/

/-- Decimal rendering of an `Int`, for `fmt.Sprintf("%s:%d", ...)`. -/
def intToStr (i : Int) : Str :=
  if i < 0 then '-' :: Nat.toDigits 10 i.natAbs else Nat.toDigits 10 i.toNat

/-- `fmt.Sprintf("%s:%d", destHost, destPort)` (src/main.go:306). -/
def fmtDest (host : Str) (port : Int) : Str := host ++ ':' :: intToStr port

/-- What one `handleHTTPTraffic` call does. -/
inductive HTTPOutcome where
  /-- A field of a nil `*ProxyConnection` was dereferenced: Go panics. -/
  | nilPanic
  /-- Parse failed: `Send(packetInfo.RawPacket, proxyConn.ProxyConn)`. -/
  | sendOnParseErr (raw : Frame)
  /-- The payload was written to the proxy verbatim and the (stub-modified)
  packet reinjected; `updated` is the touched pool entry. -/
  | forwarded (wroteToProxy : Str) (updated : ProxyConnection) (reinjected : Frame)
  /-- The entry was touched but the proxy write failed:
  `Send(packetInfo.RawPacket, packetInfo.Addr)`. -/
  | sendOnWriteErr (updated : ProxyConnection) (raw : Frame)
  deriving DecidableEq

/-- Go `handleHTTPTraffic` (src/main.go:297-322): parse the request, set
`OriginalDest` and `LastUsed` on the entry, write the payload bytes to the
proxy connection unchanged, and reinject the packet through the
`redirectPacketToProxy` stub.  Every path touches a field of `proxyConn`,
so a nil entry panics.  `writeOk` is the outcome of the proxy write. -/
def handleHTTPTraffic (payload : Str) (raw : Frame) (proxyConn : Option ProxyConnection)
    (now : Int) (writeOk : Bool) (proxyAddr : Str) : HTTPOutcome :=
  match parseHTTPRequest payload with
  | .err _ =>
    match proxyConn with
    | none => .nilPanic
    | some _ => .sendOnParseErr raw
  | .ok host port =>
    match proxyConn with
    | none => .nilPanic
    | some pc =>
      if writeOk then
        .forwarded payload { pc with originalDest := fmtDest host port, lastUsed := now }
          (redirectPacketToProxy raw proxyAddr 8080)
      else .sendOnWriteErr { pc with originalDest := fmtDest host port, lastUsed := now } raw

/-- The bytes successfully written to the upstream proxy, if any. -/
def httpForwardedBytes : HTTPOutcome → Option Str
  | .forwarded w _ _ => some w
  | _ => none

/-- The touched pool entry, if the call got as far as touching one. -/
def httpUpdatedEntry : HTTPOutcome → Option ProxyConnection
  | .forwarded _ u _ => some u
  | .sendOnWriteErr u _ => some u
  | _ => none

/-! ## Spec-side request rewriter -/

/-- Lowercase a byte string (for case-insensitive header-name matching). -/
def lowerStr (s : Str) : Str := s.map Char.toLower

/-- Split into lines, each keeping its trailing `'\n'` (the last line may
lack one). -/
def splitLinesAux : Str → Str → List Str
  | [], [] => []
  | [], a :: as => [(a :: as).reverse]
  | c :: cs, acc =>
    if c = '\n' then (acc.reverse ++ ['\n']) :: splitLinesAux cs []
    else splitLinesAux cs (c :: acc)

/-- Lines of a byte string, delimiters kept. -/
def splitLines (s : Str) : List Str := splitLinesAux s []

/-- The hop-by-hop header names of the spec, lowercased. -/
def hopByHopNames : List Str :=
  ["connection", "keep-alive", "proxy-authenticate", "proxy-authorization",
   "te", "trailers", "transfer-encoding", "upgrade", "proxy-connection"].map
    String.toList

/-- Whether a line is a hop-by-hop header line: it contains a colon and the
name before the colon matches one of `hopByHopNames` case-insensitively. -/
def isHopByHopLine (line : Str) : Bool :=
  hasChar line ':' &&
    hopByHopNames.contains (lowerStr (line.takeWhile (fun c => !(c = ':'))))

/-- Modelled from the spec: the Request Rewriter of spec section 4.3, which
is absent from `src/main.go` — "Remove hop-by-hop header lines matching
(case-insensitively): Connection, Keep-Alive, Proxy-Authenticate,
Proxy-Authorization, TE, Trailers, Transfer-Encoding, Upgrade,
Proxy-Connection", the result "otherwise byte-identical".  Used only to
compare the claimed forwarding behaviour with what the code forwards. -/
def stripHopByHopSpec (p : Str) : Str :=
  ((splitLines p).filter (fun l => !isHopByHopLine l)).foldr (· ++ ·) []

/-! ## Invariants and concrete instances -/

/-- The `last_used ≥ created_at` invariant of spec section 3, indexed by the
current instant `t`: every pooled entry also has `last_used ≤ t`. -/
def poolInv (pool : Pool) (t : Int) : Prop :=
  ∀ kv ∈ pool, kv.2.createdAt ≤ kv.2.lastUsed ∧ kv.2.lastUsed ≤ t

instance (pool : Pool) (t : Int) : Decidable (poolInv pool t) := by
  unfold poolInv; infer_instance

/-- The pool of the C5 counterexample: one entry with a live transport
handle under flow key `"a:1-b:2"`. -/
def stalePoolC5 : Pool := [("a:1-b:2".toList, ⟨[], some 5, 0, 0⟩)]

/-- The pool of the C7 scenario: capacity 2, two live unexpired entries. -/
def fullPoolC7 : Pool :=
  [("f1".toList, ⟨[], some 1, 0, 0⟩), ("f2".toList, ⟨[], some 2, 0, 0⟩)]

/-- The pool of the C8 witness: entry `"a"` idle since instant 0, entry
`"b"` used at instant 95; sweep at instant 100 with expiry 10. -/
def sweepPoolC8 : Pool :=
  [("a".toList, ⟨[], some 3, 0, 0⟩), ("b".toList, ⟨[], some 4, 90, 95⟩)]

/-- The pool of the C10 witness. -/
def invPoolC10 : Pool := [("a".toList, ⟨[], some 3, 1, 4⟩)]

/-- The payload of the C3 counterexample: a plain request carrying a
`Connection: keep-alive` hop-by-hop header. -/
def hopPayloadC3 : Str :=
  "GET http://example.com/ HTTP/1.1\r\nConnection: keep-alive\r\nHost: example.com\r\n\r\n".toList

/-! ## Pool lemmas -/

theorem poolInv_mono {pool : Pool} {t t' : Int} (h : poolInv pool t) (hle : t ≤ t') :
    poolInv pool t' :=
  fun kv hm => ⟨(h kv hm).1, le_trans (h kv hm).2 hle⟩

theorem lookupPC_mem {k : Str} {pool : Pool} {c : ProxyConnection}
    (h : lookupPC k pool = some c) : (k, c) ∈ pool := by
  induction pool with
  | nil => cases h
  | cons kv rest ih =>
    obtain ⟨k2, v⟩ := kv
    simp only [lookupPC] at h
    by_cases he : k2 = k
    · rw [if_pos he] at h
      injection h with h
      subst h; subst he; exact .head _
    · rw [if_neg he] at h
      exact .tail _ (ih h)

theorem lookupPC_none {k : Str} {pool : Pool} (h : k ∉ pool.map Prod.fst) :
    lookupPC k pool = none := by
  induction pool with
  | nil => rfl
  | cons kv rest ih =>
    obtain ⟨k2, v⟩ := kv
    simp only [List.map_cons, List.mem_cons, not_or] at h
    have hne : ¬ k2 = k := fun hh => h.1 hh.symm
    simp only [lookupPC]
    rw [if_neg hne]
    exact ih h.2

theorem mem_poolInsert {pool : Pool} {k : Str} {v : ProxyConnection}
    {kv : Str × ProxyConnection} (h : kv ∈ poolInsert pool k v) :
    kv.2 = v ∨ kv ∈ pool := by
  unfold poolInsert at h
  by_cases hs : (lookupPC k pool).isSome
  · rw [if_pos hs] at h
    obtain ⟨kv', hm, he⟩ := List.mem_map.mp h
    by_cases hk : kv'.1 = k
    · left; rw [← he]; simp [hk]
    · right; rw [← he]; simp only [if_neg hk]; exact hm
  · rw [if_neg hs] at h
    rcases List.mem_append.mp h with hm | hm
    · right; exact hm
    · left; rw [List.mem_singleton.mp hm]

theorem createProxyConn_inv {pool : Pool} {t now : Int} {flowKey : Str} {destPort : Nat}
    {dial : Option Nat} {capacity : Nat} {stale : Option ProxyConnection}
    (hinv : poolInv pool t) (hle : t ≤ now) :
    poolInv (resultPool (createProxyConn pool flowKey destPort now dial capacity stale)) now := by
  unfold createProxyConn
  by_cases hcap : capacity ≤ pool.length
  · rw [if_pos hcap]; exact poolInv_mono hinv hle
  · rw [if_neg hcap]
    by_cases hdp : destPort = 443
    · rw [if_pos hdp]
      cases dial with
      | none => exact poolInv_mono hinv hle
      | some tr =>
        simp only [resultPool]
        intro kv hm
        rcases mem_poolInsert hm with he | hmo
        · rw [he]; exact ⟨le_refl now, le_refl now⟩
        · exact poolInv_mono hinv hle kv hmo
    · rw [if_neg hdp]; exact poolInv_mono hinv hle

theorem lookupPC_filter (p : Str × ProxyConnection → Bool) (pool : Pool) (k : Str)
    (c : ProxyConnection) (hnd : (pool.map Prod.fst).Nodup) (hmem : (k, c) ∈ pool) :
    lookupPC k (pool.filter p) = if p (k, c) then some c else none := by
  induction pool with
  | nil => cases hmem
  | cons kv rest ih =>
    obtain ⟨k2, v⟩ := kv
    simp only [List.map_cons, List.nodup_cons] at hnd
    rcases List.mem_cons.mp hmem with heq | hmemr
    · injection heq with he1 he2
      subst he1; subst he2
      by_cases hp : p (k, c)
      · rw [List.filter_cons_of_pos hp, if_pos hp]
        simp [lookupPC]
      · rw [List.filter_cons_of_neg hp, if_neg hp]
        apply lookupPC_none
        intro hk
        obtain ⟨kv', hm', he'⟩ := List.mem_map.mp hk
        exact hnd.1 (List.mem_map.mpr ⟨kv', List.mem_of_mem_filter hm', he'⟩)
    · have hk2 : ¬ k2 = k := by
        intro h; subst h
        exact hnd.1 (List.mem_map.mpr ⟨(k2, c), hmemr, rfl⟩)
      rw [List.filter_cons]
      by_cases hp2 : p (k2, v)
      · rw [if_pos (by simpa using hp2)]
        simp only [lookupPC]
        rw [if_neg hk2]
        exact ih hnd.2 hmemr
      · rw [if_neg (by simpa using hp2)]
        exact ih hnd.2 hmemr

theorem getProxyConnection_none {pool : Pool} {flowKey : Str} {destPort : Nat} {now : Int}
    {probeOk : Bool} {dial : Option Nat} {capacity : Nat}
    (hl : lookupPC flowKey pool = none) :
    getProxyConnection pool flowKey destPort now probeOk dial capacity =
      createProxyConn pool flowKey destPort now dial capacity none := by
  unfold getProxyConnection; rw [hl]

theorem getProxyConnection_some {pool : Pool} {flowKey : Str} {destPort : Nat} {now : Int}
    {probeOk : Bool} {dial : Option Nat} {capacity : Nat} {conn : ProxyConnection}
    (hl : lookupPC flowKey pool = some conn) :
    getProxyConnection pool flowKey destPort now probeOk dial capacity =
      if conn.proxyConn.isSome && probeOk then
        .ok (some { conn with lastUsed := now })
          (poolInsert pool flowKey { conn with lastUsed := now })
      else createProxyConn pool flowKey destPort now dial capacity (some conn) := by
  unfold getProxyConnection; rw [hl]

/-! ## Claim C4 -/

/-- C4 (confirmed): when the flow key has no usable pooled entry and control
reaches the dial (the pool is below capacity, destination port 443) and the
dial to the upstream proxy fails, `getProxyConnection` returns the
`UpstreamUnreachable` error with the pool map unchanged — in particular no
entry for the flow key is inserted. -/
theorem dial_failure_leaves_pool_unchanged (pool : Pool) (flowKey : Str) (now : Int)
    (probeOk : Bool) (capacity : Nat)
    (hNoLive : liveEntry pool flowKey probeOk = false)
    (hcap : pool.length < capacity) :
    getProxyConnection pool flowKey 443 now probeOk none capacity = .dialErr pool := by
  have hcap2 : ¬ capacity ≤ pool.length := by omega
  unfold liveEntry at hNoLive
  cases hl : lookupPC flowKey pool with
  | none =>
    rw [getProxyConnection_none hl]
    simp [createProxyConn, hcap2]
  | some conn =>
    rw [hl] at hNoLive
    have hNL : (conn.proxyConn.isSome && probeOk) = false := hNoLive
    rw [getProxyConnection_some hl, hNL, if_neg Bool.false_ne_true]
    simp [createProxyConn, hcap2]

/-- Witness for C4 at the empty pool with flow key `"f"`. -/
theorem dial_failure_witness :
    liveEntry [] ("f".toList) false = false ∧ ([] : Pool).length < 100 ∧
    getProxyConnection [] ("f".toList) 443 5 false none 100 = .dialErr [] :=
  ⟨by decide, by decide,
   dial_failure_leaves_pool_unchanged [] ("f".toList) 5 false 100 (by decide) (by decide)⟩

/-! ## Claim C5 -/

/-- C5 (amended): for a flow with destination port 80 whose flow key is
absent from the pool map (and pool below capacity), `getProxyConnection`
dials nothing — the result is the same for every dial outcome — and returns
a nil `ProxyConnection` with a nil error; `handleHTTPTraffic` then
dereferences the nil connection and panics.  (When a dead entry is pooled
instead, the stale non-nil entry is returned; see the counterexample.) -/
theorem port80_nil_connection_amended (pool : Pool) (k : Str) (now : Int) (probeOk : Bool)
    (dial : Option Nat) (capacity : Nat) (payload : Str) (raw : Frame) (writeOk : Bool)
    (proxyAddr : Str) (habs : lookupPC k pool = none) (hcap : pool.length < capacity) :
    getProxyConnection pool k 80 now probeOk dial capacity = .ok none pool ∧
    handleHTTPTraffic payload raw none now writeOk proxyAddr = .nilPanic := by
  have hcap2 : ¬ capacity ≤ pool.length := by omega
  constructor
  · rw [getProxyConnection_none habs]
    simp [createProxyConn, hcap2]
  · cases h : parseHTTPRequest payload <;> simp [handleHTTPTraffic, h]

/-- C5 counterexample: with destination port 80 and a pooled entry whose
liveness probe fails — so the flow key has no *live* pooled entry — the
code returns the stale non-nil entry together with a nil error, refuting
the claim that every such call returns a nil `ProxyConnection`. -/
theorem port80_stale_entry_returned :
    liveEntry stalePoolC5 ("a:1-b:2".toList) false = false ∧
    getProxyConnection stalePoolC5 ("a:1-b:2".toList) 80 7 false none 100
      = .ok (some ⟨[], some 5, 0, 0⟩) stalePoolC5 ∧
    some (⟨[], some 5, 0, 0⟩ : ProxyConnection) ≠ (none : Option ProxyConnection) := by
  decide

/-- Witness for C5 at the empty pool. -/
theorem port80_nil_connection_witness :
    lookupPC ("f".toList) ([] : Pool) = none ∧ ([] : Pool).length < 100 ∧
    (getProxyConnection [] ("f".toList) 80 3 true (some 9) 100 = .ok none [] ∧
     handleHTTPTraffic ("GET /x HTTP/1.1\r\n".toList) [1, 2] none 3 true ("p".toList)
       = .nilPanic) :=
  ⟨by decide, by decide,
   port80_nil_connection_amended [] ("f".toList) 3 true (some 9) 100
     ("GET /x HTTP/1.1\r\n".toList) [1, 2] true ("p".toList) (by decide) (by decide)⟩

/-! ## Claim C7 -/

/-- C7 (code bug): with the pool at capacity 2 holding two unexpired entries
and a third distinct flow key arriving (destination port 443, dial would
succeed), `getProxyConnection` enters the capacity branch and calls
`cleanupOldConnections`, which re-acquires the already-held
`connPoolMutex`; Go's `sync.RWMutex` is not reentrant, so the call
self-deadlocks and the insertion never completes — the claim's cleanup-then-
insert behaviour is unreachable.  The second conjunct records that no entry
is expired under the default 5-minute expiry. -/
theorem capacity_cleanup_deadlock :
    getProxyConnection fullPoolC7 ("f3".toList) 443 50 true (some 9) 2
      = .deadlock fullPoolC7 ∧
    ∀ kv ∈ fullPoolC7, expiredB 50 300 kv.2 = false := by
  decide

/-! ## Claim C8 -/

/-- C8 (confirmed): after one sweep pass, every pool entry satisfying the
expiry predicate `now − last_used > expiry` is absent from the map and its
transport (when non-nil) is among the closed handles, and every entry not
satisfying the predicate is still present unchanged. -/
theorem sweep_evicts_exactly_expired (pool : Pool) (now expiry : Int) (k : Str)
    (c : ProxyConnection) (hnd : (pool.map Prod.fst).Nodup) (hmem : (k, c) ∈ pool) :
    (expiredB now expiry c = true →
        lookupPC k (cleanupOldConnections pool now expiry).1 = none ∧
        ∀ t, c.proxyConn = some t → t ∈ (cleanupOldConnections pool now expiry).2) ∧
    (expiredB now expiry c = false →
        lookupPC k (cleanupOldConnections pool now expiry).1 = some c) := by
  have hf := lookupPC_filter (fun kv => !expiredB now expiry kv.2) pool k c hnd hmem
  constructor
  · intro hexp
    constructor
    · simpa [cleanupOldConnections, hexp] using hf
    · intro t ht
      simp only [cleanupOldConnections]
      exact List.mem_filterMap.mpr ⟨(k, c), List.mem_filter.mpr ⟨hmem, hexp⟩, ht⟩
  · intro hexp
    simpa [cleanupOldConnections, hexp] using hf

/-- Witness for C8: the expired entry `"a"` is evicted and its transport 3
closed; the fresh entry `"b"` survives. -/
theorem sweep_evicts_witness :
    (sweepPoolC8.map Prod.fst).Nodup ∧
    ("a".toList, (⟨[], some 3, 0, 0⟩ : ProxyConnection)) ∈ sweepPoolC8 ∧
    expiredB 100 10 ⟨[], some 3, 0, 0⟩ = true ∧
    (lookupPC ("a".toList) (cleanupOldConnections sweepPoolC8 100 10).1 = none ∧
     3 ∈ (cleanupOldConnections sweepPoolC8 100 10).2) :=
  ⟨by decide, by decide, by decide,
   ((sweep_evicts_exactly_expired sweepPoolC8 100 10 ("a".toList) ⟨[], some 3, 0, 0⟩
       (by decide) (by decide)).1 (by decide)).1,
   ((sweep_evicts_exactly_expired sweepPoolC8 100 10 ("a".toList) ⟨[], some 3, 0, 0⟩
       (by decide) (by decide)).1 (by decide)).2 3 rfl⟩

/-! ## Claim C9 -/

/-- C9 (code bug): a 40-byte TCP frame whose IP header-length field decodes
to 40 (low nibble of byte 0 is 10) passes the code's
`ipHeaderLen > len(packet)` guard but is then indexed at
`packet[ipHeaderLen+12] = packet[52]`, out of range: `processPacket` panics
— crashing the packet processor — instead of passing the frame through
unmodified as the claim's fail-open contract requires.  The second conjunct
records the frame's length. -/
theorem malformed_frame_crash :
    processPacket (0x4A :: List.replicate 11 0 ++ 0x45 :: List.replicate 27 0)
      = .panicked ∧
    (0x4A :: List.replicate 11 0 ++ 0x45 :: List.replicate 27 0).length = 40 := by decide

/-! ## Claim C10 -/

/-- C10 (confirmed): every pooled `ProxyConnection` satisfies
`last_used ≥ created_at` (strengthened with `last_used ≤` the current
instant), and the invariant is preserved by every pool operation run at a
later instant `now`: `getProxyConnection` in all its outcomes (creation sets
both fields to `now`; a touch moves `last_used` forward to `now`), the
sweep, and the `handleHTTPTraffic` touch, which keeps `created_at` unchanged
and sets `last_used := now`. -/
theorem pool_time_invariant_preserved (pool : Pool) (t now : Int)
    (hinv : poolInv pool t) (hle : t ≤ now) :
    (∀ flowKey destPort probeOk dial capacity,
        poolInv (resultPool (getProxyConnection pool flowKey destPort now probeOk dial capacity))
          now) ∧
    (∀ expiry, poolInv (cleanupOldConnections pool now expiry).1 now) ∧
    (∀ payload raw pc writeOk proxyAddr u,
        pc.createdAt ≤ pc.lastUsed → pc.lastUsed ≤ t →
        httpUpdatedEntry (handleHTTPTraffic payload raw (some pc) now writeOk proxyAddr)
          = some u →
        u.createdAt ≤ u.lastUsed ∧ u.createdAt = pc.createdAt ∧ u.lastUsed = now) := by
  refine ⟨?_, ?_, ?_⟩
  · intro flowKey destPort probeOk dial capacity
    cases hl : lookupPC flowKey pool with
    | none =>
      rw [getProxyConnection_none hl]
      exact createProxyConn_inv hinv hle
    | some conn =>
      rw [getProxyConnection_some hl]
      by_cases hlive : (conn.proxyConn.isSome && probeOk) = true
      · rw [if_pos hlive]
        simp only [resultPool]
        intro kv hm
        rcases mem_poolInsert hm with he | hmo
        · have hc := hinv (flowKey, conn) (lookupPC_mem hl)
          rw [he]
          exact ⟨le_trans hc.1 (le_trans hc.2 hle), le_refl now⟩
        · exact poolInv_mono hinv hle kv hmo
      · rw [if_neg hlive]
        exact createProxyConn_inv hinv hle
  · intro expiry kv hm
    exact poolInv_mono hinv hle kv (List.mem_filter.mp hm).1
  · intro payload raw pc writeOk proxyAddr u h1 h2 hu
    cases hp : parseHTTPRequest payload with
    | err e => simp [handleHTTPTraffic, hp, httpUpdatedEntry] at hu
    | ok host port =>
      cases writeOk with
      | true =>
        simp [handleHTTPTraffic, hp, httpUpdatedEntry] at hu
        subst hu
        exact ⟨le_trans (le_trans h1 h2) hle, rfl, rfl⟩
      | false =>
        simp [handleHTTPTraffic, hp, httpUpdatedEntry] at hu
        subst hu
        exact ⟨le_trans (le_trans h1 h2) hle, rfl, rfl⟩

/-! ## Parsing lemmas -/

theorem readLine_append {l : Str} (r : Str) (hl : ∀ c ∈ l, ¬ c = '\n') :
    readLine (l ++ '\n' :: r) = some (l ++ ['\n']) := by
  induction l with
  | nil => simp [readLine]
  | cons c cs ih =>
    have hc : ¬ c = '\n' := hl c (.head _)
    rw [List.cons_append]
    unfold readLine
    rw [if_neg hc, ih (fun x hx => hl x (.tail _ hx))]
    rfl

theorem fieldsAux_word (w s : Str) : ∀ (acc : Str), (∀ c ∈ w, isGoSpace c = false) →
    fieldsAux (w ++ s) acc = fieldsAux s (w.reverse ++ acc) := by
  induction w with
  | nil => intro acc _; simp
  | cons c cs ih =>
    intro acc hw
    have hc : isGoSpace c = false := hw c (.head _)
    have h1 : fieldsAux (c :: (cs ++ s)) acc = fieldsAux (cs ++ s) (c :: acc) := by
      simp [fieldsAux, hc]
    rw [List.cons_append, h1, ih (c :: acc) (fun x hx => hw x (.tail _ hx))]
    simp

theorem fieldsAux_space_ne (c : Char) (s acc : Str) (hc : isGoSpace c = true)
    (hacc : acc ≠ []) :
    fieldsAux (c :: s) acc = acc.reverse :: fieldsAux s [] := by
  cases acc with
  | nil => exact absurd rfl hacc
  | cons a as => simp [fieldsAux, hc]

theorem fieldsAux_space_nil (c : Char) (s : Str) (hc : isGoSpace c = true) :
    fieldsAux (c :: s) [] = fieldsAux s [] := by
  simp [fieldsAux, hc]

theorem fields_request_line (w1 w2 w3 : Str)
    (h1 : w1 ≠ []) (hw1 : ∀ c ∈ w1, isGoSpace c = false)
    (h2 : w2 ≠ []) (hw2 : ∀ c ∈ w2, isGoSpace c = false)
    (h3 : w3 ≠ []) (hw3 : ∀ c ∈ w3, isGoSpace c = false) :
    fields (w1 ++ (' ' :: (w2 ++ (' ' :: (w3 ++ ['\r', '\n']))))) = [w1, w2, w3] := by
  unfold fields
  rw [fieldsAux_word w1 _ [] hw1, List.append_nil,
    fieldsAux_space_ne ' ' _ _ (by decide) (fun hh => h1 (by simpa using hh)),
    List.reverse_reverse,
    fieldsAux_word w2 _ [] hw2, List.append_nil,
    fieldsAux_space_ne ' ' _ _ (by decide) (fun hh => h2 (by simpa using hh)),
    List.reverse_reverse,
    fieldsAux_word w3 _ [] hw3, List.append_nil,
    fieldsAux_space_ne '\r' _ _ (by decide) (fun hh => h3 (by simpa using hh)),
    List.reverse_reverse,
    fieldsAux_space_nil '\n' _ (by decide)]
  rfl

theorem readLine_requestLine (w1 w2 w3 rest : Str)
    (hw1 : ∀ c ∈ w1, isGoSpace c = false) (hw2 : ∀ c ∈ w2, isGoSpace c = false)
    (hw3 : ∀ c ∈ w3, isGoSpace c = false) :
    readLine (requestLine w1 w2 w3 rest)
      = some (w1 ++ (' ' :: (w2 ++ (' ' :: (w3 ++ ['\r', '\n']))))) := by
  have hshape : requestLine w1 w2 w3 rest
      = (w1 ++ (' ' :: (w2 ++ (' ' :: (w3 ++ ['\r']))))) ++ '\n' :: rest := by
    simp [requestLine]
  have hnl : ∀ c ∈ w1 ++ (' ' :: (w2 ++ (' ' :: (w3 ++ ['\r'])))), ¬ c = '\n' := by
    intro c hc
    have hcase : isGoSpace c = false ∨ c = ' ' ∨ c = '\r' := by
      rcases List.mem_append.mp hc with hx | hx
      · exact .inl (hw1 c hx)
      · rcases List.mem_cons.mp hx with rfl | hx
        · exact .inr (.inl rfl)
        · rcases List.mem_append.mp hx with hy | hy
          · exact .inl (hw2 c hy)
          · rcases List.mem_cons.mp hy with rfl | hy
            · exact .inr (.inl rfl)
            · rcases List.mem_append.mp hy with hz | hz
              · exact .inl (hw3 c hz)
              · rcases List.mem_cons.mp hz with rfl | hz
                · exact .inr (.inr rfl)
                · cases hz
    rcases hcase with hx | hx | hx
    · intro e; subst e; exact absurd hx (by decide)
    · subst hx; decide
    · subst hx; decide
  rw [hshape, readLine_append rest hnl]
  simp

theorem parseCONNECTRequest_line {payload line : Str} (h : readLine payload = some line) :
    parseCONNECTRequest payload = parseCONNECTLine line := by
  unfold parseCONNECTRequest; rw [h]

theorem parseCONNECTLine_fields {line w1 w2 w3 : Str} (h : fields line = [w1, w2, w3]) :
    parseCONNECTLine line = parseCONNECTTokens w1 w2 := by
  unfold parseCONNECTLine; rw [h]

theorem parseHTTPRequest_line {payload line : Str} (h : readLine payload = some line) :
    parseHTTPRequest payload = parseHTTPLine line := by
  unfold parseHTTPRequest; rw [h]

theorem parseHTTPLine_fields {line w1 w2 w3 : Str} (h : fields line = [w1, w2, w3]) :
    parseHTTPLine line = parseHTTPURL w2 := by
  unfold parseHTTPLine; rw [h]

theorem parseCONNECTTokens_connect {hostPort host port : Str}
    (h : splitHostPort hostPort = some (host, port)) :
    parseCONNECTTokens ("CONNECT".toList) hostPort
      = parseConnPort host (if port = [] then "443".toList else port) := by
  unfold parseCONNECTTokens
  rw [if_pos rfl, h]

theorem lastIdx_eq_none {s : Str} {ch : Char} (h : ∀ c ∈ s, ¬ c = ch) :
    lastIdx s ch = none := by
  induction s with
  | nil => rfl
  | cons c cs ih =>
    simp only [lastIdx]
    rw [ih (fun x hx => h x (.tail _ hx)), if_neg (h c (.head _))]

theorem lastIdx_append_colon (host port : Str) (hh : ∀ c ∈ host, ¬ c = ':')
    (hp : ∀ c ∈ port, ¬ c = ':') :
    lastIdx (host ++ ':' :: port) ':' = some host.length := by
  induction host with
  | nil =>
    rw [List.nil_append]
    unfold lastIdx
    rw [lastIdx_eq_none hp]
    simp
  | cons c cs ih =>
    rw [List.cons_append]
    unfold lastIdx
    rw [ih (fun x hx => hh x (.tail _ hx))]
    rfl

theorem hasChar_eq_false {s : Str} {ch : Char} (h : ∀ c ∈ s, ¬ c = ch) :
    hasChar s ch = false := by
  induction s with
  | nil => rfl
  | cons c cs ih =>
    simp only [hasChar]
    rw [if_neg (h c (.head _))]
    exact ih (fun x hx => h x (.tail _ hx))

theorem splitHostPort_append (host port : Str)
    (hh : ∀ c ∈ host, ¬ c = ':' ∧ ¬ c = '[' ∧ ¬ c = ']')
    (hp : ∀ c ∈ port, ¬ c = ':' ∧ ¬ c = '[' ∧ ¬ c = ']') :
    splitHostPort (host ++ ':' :: port) = some (host, port) := by
  have hcolon := lastIdx_append_colon host port (fun c hc => (hh c hc).1) (fun c hc => (hp c hc).1)
  have hall : ∀ c ∈ host ++ ':' :: port, ¬ c = '[' ∧ ¬ c = ']' := by
    intro c hc
    rcases List.mem_append.mp hc with hx | hx
    · exact ⟨(hh c hx).2.1, (hh c hx).2.2⟩
    · rcases List.mem_cons.mp hx with rfl | hx
      · exact ⟨by decide, by decide⟩
      · exact ⟨(hp c hx).2.1, (hp c hx).2.2⟩
  have hhead : ¬ (host ++ ':' :: port).head? = some '[' := by
    cases host with
    | nil =>
      intro e
      rw [List.nil_append, List.head?_cons] at e
      injection e with e
      exact absurd e (by decide)
    | cons c cs =>
      intro e
      rw [List.cons_append, List.head?_cons] at e
      injection e with e
      exact absurd e (hh c (.head _)).2.1
  have htake : (host ++ ':' :: port).take host.length = host :=
    List.take_left' rfl
  have hdrop : (host ++ ':' :: port).drop (host.length + 1) = port := by
    have hsh : host ++ ':' :: port = (host ++ [':']) ++ port := by simp
    rw [hsh]
    exact List.drop_left' (by simp)
  have hbrL : hasChar (host ++ ':' :: port) '[' = false :=
    hasChar_eq_false (fun c hc => (hall c hc).1)
  have hbrR : hasChar (host ++ ':' :: port) ']' = false :=
    hasChar_eq_false (fun c hc => (hall c hc).2)
  have hhc : hasChar host ':' = false := hasChar_eq_false (fun c hc => (hh c hc).1)
  have hat : splitHostPort (host ++ ':' :: port)
      = splitHostPortAt (host ++ ':' :: port) host.length := by
    unfold splitHostPort
    rw [hcolon]
  rw [hat]
  unfold splitHostPortAt
  rw [if_neg hhead, htake, hhc, if_neg Bool.false_ne_true, hbrL, hbrR]
  simp only [Bool.or_self, Bool.false_eq_true, if_false, hdrop]

theorem digitsValAux_all {s : Str} : ∀ {acc n : Nat},
    digitsValAux s acc = some n → ∀ c ∈ s, c.isDigit = true := by
  induction s with
  | nil => intro acc n _ c hc; cases hc
  | cons a as ih =>
    intro acc n h c hc
    unfold digitsValAux at h
    by_cases ha : a.isDigit = true
    · rw [if_pos ha] at h
      rcases List.mem_cons.mp hc with rfl | hmem
      · exact ha
      · exact ih h c hmem
    · rw [if_neg ha] at h; cases h

theorem digitsVal_all {s : Str} {n : Nat} (h : digitsVal s = some n) :
    s ≠ [] ∧ ∀ c ∈ s, c.isDigit = true := by
  cases s with
  | nil => cases h
  | cons a as =>
    have h2 : digitsValAux (a :: as) 0 = some n := h
    exact ⟨by simp, digitsValAux_all h2⟩

theorem digitNotSpace {c : Char} (h : c.isDigit = true) : isGoSpace c = false := by
  cases hsp : isGoSpace c with
  | false => rfl
  | true =>
    exfalso
    unfold isGoSpace at hsp
    simp only [Bool.or_eq_true, decide_eq_true_eq] at hsp
    rcases hsp with (((((((h1 | h1) | h1) | h1) | h1) | h1) | h1) | h1) <;>
      (subst h1; exact absurd h (by decide))

theorem atoi_of_digits {s : Str} {n : Nat} (hd : digitsVal s = some n)
    (hn : n < 2 ^ 63) : atoi s = some (n : Int) := by
  obtain ⟨hne, hall⟩ := digitsVal_all hd
  cases s with
  | nil => exact absurd rfl hne
  | cons c cs =>
    have hcd := hall c (.head _)
    have hcp : ¬ c = '+' := fun e => absurd (e ▸ hcd) (by decide)
    have hcm : ¬ c = '-' := fun e => absurd (e ▸ hcd) (by decide)
    show (if c = '+' then
            (digitsVal cs).bind (fun m => if m < 2 ^ 63 then some (m : Int) else none)
          else if c = '-' then
            (digitsVal cs).bind (fun m => if m ≤ 2 ^ 63 then some (-(m : Int)) else none)
          else
            (digitsVal (c :: cs)).bind
              (fun m => if m < 2 ^ 63 then some (m : Int) else none)) = some (n : Int)
    rw [if_neg hcp, if_neg hcm, hd]
    show (if n < 2 ^ 63 then some ((n : Nat) : Int) else none) = some (n : Int)
    rw [if_pos hn]

theorem startsWith_append_self (p s : Str) : startsWith (p ++ s) p = true := by
  induction p with
  | nil => rfl
  | cons c cs ih =>
    rw [List.cons_append]
    show (if c = c then startsWithAux cs (cs ++ s) else false) = true
    rw [if_pos rfl]
    exact ih

theorem any_eq_false_of_all {s : Str} {p : Char → Bool} (h : ∀ c ∈ s, p c = false) :
    s.any p = false := by
  induction s with
  | nil => rfl
  | cons a as ih =>
    simp only [List.any_cons, h a (.head _), Bool.false_or]
    exact ih (fun x hx => h x (.tail _ hx))

/-! ## Claim C1 -/

/-- C1 (amended): for every well-formed `CONNECT host:port HTTP/1.1` line
classification yields host and port exactly as given, and an empty port
with the colon present (`CONNECT host: HTTP/1.1`) defaults to 443; a second
token with no colon at all fails instead of defaulting (see the
counterexample). -/
theorem parseCONNECT_amended_hostport (host port rest : Str) (n : Nat)
    (_hne : host ≠ [])
    (hh : ∀ c ∈ host, isGoSpace c = false ∧ ¬ c = ':' ∧ ¬ c = '[' ∧ ¬ c = ']')
    (hd : digitsVal port = some n) (hn : n < 2 ^ 63) :
    parseCONNECTRequest (requestLine ("CONNECT".toList) (host ++ ':' :: port)
        ("HTTP/1.1".toList) rest) = .ok host (n : Int) ∧
    parseCONNECTRequest (requestLine ("CONNECT".toList) (host ++ [':'])
        ("HTTP/1.1".toList) rest) = .ok host 443 := by
  obtain ⟨hpne, hpd⟩ := digitsVal_all hd
  have hhsp : ∀ c ∈ host, isGoSpace c = false := fun c hc => (hh c hc).1
  have hhx : ∀ c ∈ host, ¬ c = ':' ∧ ¬ c = '[' ∧ ¬ c = ']' := fun c hc => (hh c hc).2
  have hpsp : ∀ c ∈ port, isGoSpace c = false := fun c hc => digitNotSpace (hpd c hc)
  have hpx : ∀ c ∈ port, ¬ c = ':' ∧ ¬ c = '[' ∧ ¬ c = ']' := fun c hc =>
    ⟨fun e => absurd (e ▸ hpd c hc) (by decide),
     fun e => absurd (e ▸ hpd c hc) (by decide),
     fun e => absurd (e ▸ hpd c hc) (by decide)⟩
  constructor
  · have htsp : ∀ c ∈ host ++ ':' :: port, isGoSpace c = false := by
      intro c hc
      rcases List.mem_append.mp hc with hx | hx
      · exact hhsp c hx
      · rcases List.mem_cons.mp hx with rfl | hx
        · decide
        · exact hpsp c hx
    rw [parseCONNECTRequest_line
        (readLine_requestLine ("CONNECT".toList) (host ++ ':' :: port) ("HTTP/1.1".toList)
          rest (by decide) htsp (by decide)),
      parseCONNECTLine_fields
        (fields_request_line ("CONNECT".toList) (host ++ ':' :: port) ("HTTP/1.1".toList)
          (by decide) (by decide) (by simp) htsp (by decide) (by decide)),
      parseCONNECTTokens_connect (splitHostPort_append host port hhx hpx),
      if_neg hpne]
    unfold parseConnPort
    rw [atoi_of_digits hd hn]
  · have htsp : ∀ c ∈ host ++ [':'], isGoSpace c = false := by
      intro c hc
      rcases List.mem_append.mp hc with hx | hx
      · exact hhsp c hx
      · rcases List.mem_cons.mp hx with rfl | hx
        · decide
        · cases hx
    rw [parseCONNECTRequest_line
        (readLine_requestLine ("CONNECT".toList) (host ++ [':']) ("HTTP/1.1".toList)
          rest (by decide) htsp (by decide)),
      parseCONNECTLine_fields
        (fields_request_line ("CONNECT".toList) (host ++ [':']) ("HTTP/1.1".toList)
          (by decide) (by decide) (by simp) htsp (by decide) (by decide)),
      parseCONNECTTokens_connect
        (splitHostPort_append host [] hhx (fun c hc => absurd hc (List.not_mem_nil c))),
      if_pos rfl]
    rfl

/-- C1 counterexample: `CONNECT example.com HTTP/1.1` — the second token has
no `:port` part — fails in `net.SplitHostPort` (`missing port in address`)
instead of succeeding with port 443 as the claim states. -/
theorem parseCONNECT_bare_host_fails :
    parseCONNECTRequest ("CONNECT example.com HTTP/1.1\r\n".toList) = .err .splitErr ∧
    parseCONNECTRequest ("CONNECT example.com HTTP/1.1\r\n".toList)
      ≠ .ok ("example.com".toList) 443 := by decide

/-- Witness for C1 at host `example.com`, port `8443`. -/
theorem parseCONNECT_amended_witness :
    digitsVal ("8443".toList) = some 8443 ∧
    (parseCONNECTRequest (requestLine ("CONNECT".toList)
        ("example.com".toList ++ ':' :: "8443".toList) ("HTTP/1.1".toList) [])
      = .ok ("example.com".toList) 8443 ∧
     parseCONNECTRequest (requestLine ("CONNECT".toList)
        ("example.com".toList ++ [':']) ("HTTP/1.1".toList) [])
      = .ok ("example.com".toList) 443) :=
  ⟨by decide,
   parseCONNECT_amended_hostport ("example.com".toList) ("8443".toList) [] 8443
     (by decide) (by decide) (by decide) (by decide)⟩

/-! ## Claim C2 -/

/-- C2 (amended): classification reads only the request line and never
consults header lines: for every plain request whose target is a relative
path `/...`, it succeeds with empty host and port 80 whatever the rest of
the request contains — in particular it yields the same result whether or
not a `Host:` header is present, and never fails with `MalformedRequest`
for a missing `Host` header. -/
theorem parseHTTP_relative_path_amended (method p0 rest : Str)
    (hm : method ≠ []) (hmsp : ∀ c ∈ method, isGoSpace c = false)
    (hclean : ∀ c ∈ p0, isGoSpace c = false ∧ ctlByte c = false ∧ ¬ c = '%') :
    parseHTTPRequest (requestLine method ('/' :: p0) ("HTTP/1.1".toList) rest)
      = .ok [] 80 := by
  have hpsp : ∀ c ∈ ('/' :: p0), isGoSpace c = false := by
    intro c hc
    rcases List.mem_cons.mp hc with rfl | hx
    · decide
    · exact (hclean c hx).1
  have hstar : ¬ ('/' :: p0) = ['*'] := by
    intro e; injection e with e1 _; exact absurd e1 (by decide)
  have hsw : startsWith ('/' :: p0) ("http://".toList) = false := rfl
  have hURL : parseURL ("http://".toList ++ '/' :: p0) = some [] := by
    have hctl : ("http://".toList ++ '/' :: p0).any ctlByte = false := by
      apply any_eq_false_of_all
      intro c hc
      rcases List.mem_append.mp hc with hx | hx
      · exact (by decide : ∀ c ∈ ("http://".toList), ctlByte c = false) c hx
      · rcases List.mem_cons.mp hx with rfl | hx
        · decide
        · exact (hclean c hx).2.1
    have hpct : hasChar ("http://".toList ++ '/' :: p0) '%' = false := by
      apply hasChar_eq_false
      intro c hc
      rcases List.mem_append.mp hc with hx | hx
      · exact (by decide : ∀ c ∈ ("http://".toList), ¬ c = '%') c hx
      · rcases List.mem_cons.mp hx with rfl | hx
        · decide
        · exact (hclean c hx).2.2
    unfold parseURL
    rw [hctl, if_neg Bool.false_ne_true, hpct, if_neg Bool.false_ne_true,
      if_pos (startsWith_append_self ("http://".toList) ('/' :: p0)),
      List.drop_left' (by decide)]
    rfl
  rw [parseHTTPRequest_line
      (readLine_requestLine method ('/' :: p0) ("HTTP/1.1".toList) rest hmsp hpsp (by decide)),
    parseHTTPLine_fields
      (fields_request_line method ('/' :: p0) ("HTTP/1.1".toList) hm hmsp (by simp) hpsp
        (by decide) (by decide))]
  unfold parseHTTPURL
  rw [if_neg hstar, hsw, if_neg Bool.false_ne_true, hURL]
  rfl

/-- C2 counterexample: `GET /path HTTP/1.1` with a `Host: example.com`
header yields host `""` and port 80 — not `http://example.com/path` — and
without any `Host` header it still succeeds instead of failing with
`MalformedRequest`. -/
theorem parseHTTP_ignores_host_header :
    parseHTTPRequest ("GET /path HTTP/1.1\r\nHost: example.com\r\n\r\n".toList)
      = .ok [] 80 ∧
    parseHTTPRequest ("GET /path HTTP/1.1\r\nHost: example.com\r\n\r\n".toList)
      ≠ .ok ("example.com".toList) 80 ∧
    (parseHTTPRequest ("GET /path HTTP/1.1\r\n".toList)).isErr = false := by decide

/-- Witness for C2 with method `GET`, path `/path`, and a `Host` header in
the remainder. -/
theorem parseHTTP_relative_path_witness :
    ("GET".toList ≠ []) ∧
    parseHTTPRequest (requestLine ("GET".toList) ('/' :: "path".toList)
        ("HTTP/1.1".toList) ("Host: example.com\r\n\r\n".toList)) = .ok [] 80 :=
  ⟨by decide,
   parseHTTP_relative_path_amended ("GET".toList) ("path".toList)
     ("Host: example.com\r\n\r\n".toList) (by decide) (by decide) (by decide)⟩

/-! ## Claim C3 -/

/-- C3 (amended): the bytes `handleHTTPTraffic` forwards to the upstream
proxy are byte-identical to the original request payload, hop-by-hop header
lines included — no header stripping is performed anywhere on the plain
path. -/
theorem forward_bytes_identical_amended (payload : Str) (raw : Frame)
    (pc : ProxyConnection) (now : Int) (proxyAddr : Str) (host : Str) (port : Int)
    (hp : parseHTTPRequest payload = .ok host port) :
    httpForwardedBytes (handleHTTPTraffic payload raw (some pc) now true proxyAddr)
      = some payload := by
  simp [handleHTTPTraffic, hp, httpForwardedBytes]

/-- C3 counterexample: the code forwards the request bytes verbatim,
`Connection` header included, whereas the claim requires the hop-by-hop
lines to be removed — the spec-side rewriter produces different bytes. -/
theorem forward_keeps_hop_by_hop :
    httpForwardedBytes (handleHTTPTraffic hopPayloadC3 [9] (some ⟨[], some 1, 0, 0⟩) 5 true
        ("p".toList)) = some hopPayloadC3 ∧
    stripHopByHopSpec hopPayloadC3 ≠ hopPayloadC3 := by decide

/-- Witness for C3 at a concrete absolute-URL request. -/
theorem forward_bytes_identical_witness :
    parseHTTPRequest ("GET http://example.com/path HTTP/1.1\r\n\r\n".toList)
      = .ok ("example.com".toList) 80 ∧
    httpForwardedBytes (handleHTTPTraffic ("GET http://example.com/path HTTP/1.1\r\n\r\n".toList)
        [7] (some ⟨[], some 2, 0, 0⟩) 9 true ("p".toList))
      = some ("GET http://example.com/path HTTP/1.1\r\n\r\n".toList) :=
  ⟨by decide,
   forward_bytes_identical_amended ("GET http://example.com/path HTTP/1.1\r\n\r\n".toList)
     [7] ⟨[], some 2, 0, 0⟩ 9 ("p".toList) ("example.com".toList) 80 (by decide)⟩

/-! ## Claim C6 -/

/-- C6 (confirmed): whenever the request line — the payload up to and
including the first newline, or the whole payload when no newline arrives —
splits into fewer than 3 whitespace-separated tokens, both classifiers
fail.  (In the spec's taxonomy every classifier failure is a
`MalformedRequest`: the parsers return the `invalid HTTP request` /
`invalid CONNECT request` errors, or the read error when no newline was
found.) -/
theorem short_request_line_fails (p : Str)
    (h : (fields ((readLine p).getD p)).length < 3) :
    (parseHTTPRequest p).isErr = true ∧ (parseCONNECTRequest p).isErr = true := by
  cases hr : readLine p with
  | none =>
    constructor <;> simp [parseHTTPRequest, parseCONNECTRequest, hr, ParseResult.isErr]
  | some l =>
    rw [hr, Option.getD_some] at h
    constructor
    · rw [parseHTTPRequest_line hr]
      unfold parseHTTPLine
      cases hf : fields l with
      | nil => rfl
      | cons a t =>
        cases t with
        | nil => rfl
        | cons b t2 =>
          cases t2 with
          | nil => rfl
          | cons c t3 => rw [hf] at h; simp at h; omega
    · rw [parseCONNECTRequest_line hr]
      unfold parseCONNECTLine
      cases hf : fields l with
      | nil => rfl
      | cons a t =>
        cases t with
        | nil => rfl
        | cons b t2 =>
          cases t2 with
          | nil => rfl
          | cons c t3 => rw [hf] at h; simp at h; omega

/-- Witness for C6 at the two-token line `GET /`. -/
theorem short_request_line_witness :
    (fields ((readLine ("GET /\r\n".toList)).getD ("GET /\r\n".toList))).length < 3 ∧
    ((parseHTTPRequest ("GET /\r\n".toList)).isErr = true ∧
     (parseCONNECTRequest ("GET /\r\n".toList)).isErr = true) :=
  ⟨by decide, short_request_line_fails ("GET /\r\n".toList) (by decide)⟩

/-- Witness for C10 at a concrete pool, instants 5 ≤ 7, exercising the
`getProxyConnection` conjunct on a cache hit with a live probe. -/
theorem pool_time_invariant_witness :
    poolInv invPoolC10 5 ∧ (5 : Int) ≤ 7 ∧
    poolInv (resultPool (getProxyConnection invPoolC10 ("a".toList) 443 7 true (some 9) 100)) 7 :=
  ⟨by decide, by decide,
   (pool_time_invariant_preserved invPoolC10 5 7 (by decide) (by decide)).1
     ("a".toList) 443 true (some 9) 100⟩

end GateLAN
